import Mathlib

/-
Verification development for the RCNLP author-clustering scripts.

The Python sources are shallowly embedded:
  * numeric values are modelled as rationals;
  * numpy matrices are lists of rows (or, for document embeddings, lists of
    columns, matching how the source indexes them);
  * Python code that can raise is modelled with `Except`, the possible
    exceptions being collected in `PyRuntimeError`;
  * the stable Python `list.sort(key=...)` is modelled by insertion sort,
    which is extensionally the same function on the same key.
-/

set_option maxRecDepth 4000

/-- Exceptions that the embedded numpy/python fragments can raise. -/
inductive PyRuntimeError where
  | indexError
  | zeroDivisionError
  | valueError
  deriving DecidableEq, Repr

/-- Configuration errors in the sense of the specification's error taxonomy. -/
inductive ConfigurationError where
  | invalidSpectralRadius
  deriving DecidableEq, Repr

/-! ## author_clustering.py : reservoir construction -/

/-- The reservoir node, holding the construction parameters
(`RCNLPWordReservoirNode(input_dim=n_symbols, output_dim=size, ...)`). -/
structure RCNLPWordReservoirNode where
  input_dim : Nat
  output_dim : Nat
  input_scaling : ℚ
  leak_rate : ℚ
  spectral_radius : ℚ
  word_sparsity : ℚ
  deriving DecidableEq, Repr

/-- Modelled from the spec: the constructor of `RCNLPWordReservoirNode`
(`core/nodes/RCNLPWordReservoirNode.py`, not under `src/`).  Per the
specification the constructor rejects `spectral_radius ≤ 0` as a
configuration error; otherwise it returns the node carrying its
(immutable) parameters. -/
def mkRCNLPWordReservoirNode (input_dim output_dim : Nat)
    (input_scaling leak_rate spectral_radius word_sparsity : ℚ) :
    Except ConfigurationError RCNLPWordReservoirNode :=
  if spectral_radius ≤ 0 then
    Except.error ConfigurationError.invalidSpectralRadius
  else
    Except.ok
      { input_dim := input_dim, output_dim := output_dim,
        input_scaling := input_scaling, leak_rate := leak_rate,
        spectral_radius := spectral_radius, word_sparsity := word_sparsity }

/-- An `mdp.Flow` over reservoir nodes (`mdp.Flow([reservoir], verbose=1)`). -/
structure MDPFlow where
  nodes : List RCNLPWordReservoirNode
  deriving DecidableEq, Repr

/-- `create_reservoir` from `author_clustering.py` (lines 67-87): build the
reservoir node and wrap it in a one-node flow. -/
def create_reservoir (n_symbols : Nat) (word_sparsity : ℚ) (size : Nat)
    (input_scaling leak_rate spectral_radius : ℚ) :
    Except ConfigurationError MDPFlow :=
  (mkRCNLPWordReservoirNode n_symbols size input_scaling leak_rate
      spectral_radius word_sparsity).map
    (fun reservoir => { nodes := [reservoir] })

/-! ## author_clustering.py : reservoir state generation (aggregation step) -/

/-- The computational content of `generate_reservoir_states`
(`author_clustering.py` lines 91-114) with the conversion and the flow
abstracted as a function: `states = the_flow(doc_array)[remove_startup:]`.
Plot and print statements have no semantic content and are omitted. -/
def generate_reservoir_states (the_flow : List (List ℚ) → List (List ℚ))
    (doc_array : List (List ℚ)) (remove_startup : Nat) : List (List ℚ) :=
  (the_flow doc_array).drop remove_startup

/-! ## author_clustering.py : main script, PCA fit/transform sequence -/

/-- A linear reducer (sklearn `PCA`) viewed through its calling protocol:
it remembers the matrix it was fitted on and how many times `fit` ran. -/
structure PCAModel where
  fitted : Option (List (List ℚ))
  fitCount : Nat
  deriving DecidableEq, Repr

/-- `PCA(n_components=...)`: a fresh, unfitted model. -/
def PCAModel.init : PCAModel := { fitted := none, fitCount := 0 }

/-- `pca.fit(m)`: record the training matrix. -/
def PCAModel.fit (p : PCAModel) (m : List (List ℚ)) : PCAModel :=
  { fitted := some m, fitCount := p.fitCount + 1 }

/-- `pca.transform(m)`: only defined on a fitted model; the result records
which fitted basis was used (and the fit count at use time) together with
the transformed data, since the linear algebra itself is external. -/
def PCAModel.transform (p : PCAModel) (m : List (List ℚ)) :
    Option (List (List ℚ) × Nat × List (List ℚ)) :=
  p.fitted.map (fun basis => (basis, p.fitCount, m))

/-- `np.vstack((state1, state2))`: vertical concatenation of row lists. -/
def np_vstack (a b : List (List ℚ)) : List (List ℚ) := a ++ b

/-- The reduction segment of the `__main__` block of `author_clustering.py`
(lines 170-182): join the two state matrices, fit the PCA once on the
joined matrix, then transform each author's states separately. -/
def main_pca_segment (state1 state2 : List (List ℚ)) :
    Option ((List (List ℚ) × Nat × List (List ℚ)) ×
            (List (List ℚ) × Nat × List (List ℚ))) :=
  let join_states := np_vstack state1 state2
  let pca := PCAModel.init.fit join_states
  do
    let e1 ← pca.transform state1
    let e2 ← pca.transform state2
    pure (e1, e2)

/-! ## core/converters/RCNLPTagConverter.py -/

namespace RCNLPTagConverter

/-- `get_tags` (lines 36-45): the hard-coded POS tag list, verbatim.  The
first two entries are the quote tags written with escaped characters. -/
def get_tags : List String :=
  ["\x27\x27", ",", ":", ".", "\x60\x60", "-LRB-", "-RRB-", "AFX", "CC",
   "CD", "DT", "EX", "FW", "IN", "IN", "JJ", "JJR", "JJS", "LS", "MD",
   "NN", "NNS", "NNP", "NNPS", "PDT", "POS", "PRP", "PRP$", "RB", "RBR",
   "RBS", "RP", "SYM", "TO", "UH", "VB", "VBZ", "VBP", "VBD", "VBN",
   "VBG", "WDT", "WP", "WP$", "WRB"]

/-- `_get_inputs_size` (lines 48-54): the length of the tag list. -/
def _get_inputs_size : Nat := get_tags.length

end RCNLPTagConverter

/-! ## author_clustering_document_embeddings.py : similarity ranker -/

/-- The squared Euclidean distance between two vectors
(`scipy.spatial.distance.euclidean` computes its square root). -/
def sqDist (u v : List ℚ) : ℚ :=
  (List.zipWith (fun a b => (a - b) ^ 2) u v).sum

/-- The sort key of `similarities.sort(key=lambda tup: tup[1])`: compare
pairs by their second (distance) component. -/
def distLe (a b : ℕ × ℚ) : Prop := a.2 ≤ b.2

instance : DecidableRel distLe :=
  fun a b => inferInstanceAs (Decidable (a.2 ≤ b.2))

instance : IsTotal (ℕ × ℚ) distLe := ⟨fun a b => le_total a.2 b.2⟩

instance : IsTrans (ℕ × ℚ) distLe := ⟨fun _ _ _ hab hbc => le_trans hab hbc⟩

/-- `get_similar_documents` up to the final square root: the loop
`for n in range(ncols): if n != document_index: append (n, distance)`
builds the pair list in increasing `n`, and the stable Python sort by the
distance component is insertion sort by `distLe`.  Distances are kept
squared here; the square root is applied in `get_similar_documents`
below, which does not change the sort order since the square root is
strictly monotone on the non-negative squared distances. -/
def rank_sq (document_index : ℕ) (document_embeddings : List (List ℚ)) :
    List (ℕ × ℚ) :=
  List.insertionSort distLe
    (((List.range document_embeddings.length).filter
        (fun n => n ≠ document_index)).map
      (fun n => (n, sqDist (document_embeddings.getD document_index [])
                           (document_embeddings.getD n []))))

/-- `get_similar_documents` (`author_clustering_document_embeddings.py`
lines 59-72), with `document_embeddings` given as its list of columns:
each returned pair carries the Euclidean distance between column
`document_index` and the other column. -/
noncomputable def get_similar_documents (document_index : ℕ)
    (document_embeddings : List (List ℚ)) : List (ℕ × ℝ) :=
  (rank_sq document_index document_embeddings).map
    (fun p => (p.1, Real.sqrt (p.2 : ℝ)))

/-- Strict "distance, then encounter order" order on the pair list: this is
what a stable ascending sort by distance of a list with increasing indices
must satisfy. -/
def distLex (a b : ℕ × ℚ) : Prop :=
  a.2 < b.2 ∨ (a.2 = b.2 ∧ a.1 < b.1)

/-! ## author_clustering.py : generate_pca_image -/

/-- The 256x256x3 accumulation image, as a function from (row, column,
channel) to accumulated intensity. -/
abbrev RCImage := ℤ → ℤ → ℕ → ℚ

/-- Python `int(...)` on a float: truncation toward zero. -/
def pyInt (q : ℚ) : ℤ := if 0 ≤ q then ⌊q⌋ else -⌊-q⌋

/-- numpy indexing on an axis of size 256: indices in [-256, 255] are
accepted (negative ones wrap around to the end), anything else raises an
IndexError.  The effective index always lies in [0, 255]. -/
def npIndex256 (i : ℤ) : Except PyRuntimeError ℤ :=
  if 256 ≤ i ∨ i < -256 then Except.error PyRuntimeError.indexError
  else Except.ok (i % 256)

/-- `image[a, b, channel] += v`. -/
def addAt (img : RCImage) (a b : ℤ) (channel : ℕ) (v : ℚ) : RCImage :=
  fun x y c =>
    if x = a ∧ y = b ∧ c = channel then img x y c + v else img x y c

/-- `s[index]` on a point vector: raises an IndexError out of range. -/
def getCoord (s : List ℚ) (index : ℕ) : Except PyRuntimeError ℚ :=
  match s[index]? with
  | some v => Except.ok v
  | none => Except.error PyRuntimeError.indexError

/-- One `for s in states:` loop of `generate_pca_image`: for each point
read the two used coordinates `v1 = s[index1]`, `v2 = s[index2]`, map each
through `int((v+1)*128)`, and do `image[.., .., channel] += n_ratio`;
the first raised exception aborts the loop. -/
def accum_points (index1 index2 channel : ℕ) (n_ratio : ℚ) :
    RCImage → List (List ℚ) → Except PyRuntimeError RCImage
  | img, [] => Except.ok img
  | img, s :: rest =>
    match getCoord s index1, getCoord s index2 with
    | Except.ok v1, Except.ok v2 =>
      match npIndex256 (pyInt ((v1 + 1) * 128)),
            npIndex256 (pyInt ((v2 + 1) * 128)) with
      | Except.ok a, Except.ok b =>
        accum_points index1 index2 channel n_ratio
          (addAt img a b channel n_ratio) rest
      | Except.error e, _ => Except.error e
      | _, Except.error e => Except.error e
    | Except.error e, _ => Except.error e
    | _, Except.error e => Except.error e

/-- `generate_pca_image` (`author_clustering.py` lines 118-133): start from
the zero image, accumulate the first point set into channel 1 and the
second into channel 2, each increment being `n_ratio = 256.0 / n_samples`
(for `n_samples = 0` that division itself raises ZeroDivisionError). -/
def generate_pca_image (states1 states2 : List (List ℚ))
    (index1 index2 : ℕ) : Except PyRuntimeError RCImage :=
  let n_samples := states1.length + states2.length
  if n_samples = 0 then Except.error PyRuntimeError.zeroDivisionError
  else
    match accum_points index1 index2 1 ((256 : ℚ) / (n_samples : ℚ))
        (fun _ _ _ => 0) states1 with
    | Except.ok img1 =>
      accum_points index1 index2 2 ((256 : ℚ) / (n_samples : ℚ)) img1 states2
    | Except.error e => Except.error e

/-- Total accumulated intensity over all cells of the 256x256x3 image. -/
def totalInk (img : RCImage) : ℚ :=
  ∑ x ∈ Finset.range 256, ∑ y ∈ Finset.range 256, ∑ c ∈ Finset.range 3,
    img (x : ℤ) (y : ℤ) c

/-- The image produced by rasterizing the single point (0,0): one deposit
of `256 / 1` at pixel (128, 128) of channel 1.  Used to evaluate theorems
about `generate_pca_image` on a concrete run. -/
def demo_pca_image : RCImage := addAt (fun _ _ _ => 0) 128 128 1 256

/-! ## core/converters/RCNLPTagConverter.py : the conversion loop -/

namespace RCNLPTagConverter

/-- Modelled from the spec: `tag_to_symbol` (defined in the
`RCNLPConverter` base class, which is not under `src/`) maps a POS tag to
a fixed-width one-hot symbol vector — constant width per experiment, one
vector per retained token — and `None` for a tag outside the tag list. -/
def tag_to_symbol (tag : String) : Option (List ℚ) :=
  (get_tags.findIdx? (fun t => t = tag)).map
    (fun k => (List.range get_tags.length).map
      (fun m => if m = k then 1 else 0))

/-- The growing `doc_array`: numpy's `np.array([])` (an empty 1-D array of
shape (0,)) or a stack of rows. -/
inductive DocArr where
  | empty
  | rows (rs : List (List ℚ))
  deriving DecidableEq, Repr

/-- `np.vstack((doc_array, sym))`: append a row to the stack.  Stacking a
non-empty row onto `np.array([])` raises a ValueError, because after
`atleast_2d` the widths 0 and `len(sym)` must match; likewise for
mismatched row widths. -/
def np_vstack_row (d : DocArr) (sym : List ℚ) :
    Except PyRuntimeError DocArr :=
  match d with
  | DocArr.empty =>
    if sym.length = 0 then Except.ok (DocArr.rows [[], []])
    else Except.error PyRuntimeError.valueError
  | DocArr.rows rs =>
    match rs with
    | [] => Except.ok (DocArr.rows [sym])
    | r :: _ =>
      if r.length = sym.length then Except.ok (DocArr.rows (rs ++ [sym]))
      else Except.error PyRuntimeError.valueError

/-- The token loop of `RCNLPTagConverter.__call__` (lines 73-84).  A token
is a (text, tag) pair; `index` is the token's position in the document,
and — exactly as in the source — the `index == 0` test decides between
starting `doc_array` at `sym` and `np.vstack`-ing onto it. -/
def call_loop (exclude : List String)
    (word_exclude : List (String × String)) :
    ℕ → DocArr → List (String × String) → Except PyRuntimeError DocArr
  | _, doc_array, [] => Except.ok doc_array
  | index, doc_array, word :: rest =>
    if word.2 ∉ exclude ∧ word ∉ word_exclude then
      match tag_to_symbol word.2 with
      | some sym =>
        if index = 0 then
          call_loop exclude word_exclude (index + 1) (DocArr.rows [sym]) rest
        else
          match np_vstack_row doc_array sym with
          | Except.ok d2 => call_loop exclude word_exclude (index + 1) d2 rest
          | Except.error e => Except.error e
      | none => call_loop exclude word_exclude (index + 1) doc_array rest
    else call_loop exclude word_exclude (index + 1) doc_array rest

/-- Modelled from the spec: `reduce` (also in the `RCNLPConverter` base
class, not under `src/`) passes the stacked rows through unchanged, per
the converter contract (one fixed-width vector per retained token, in
document order). -/
def reduce (d : DocArr) : List (List ℚ) :=
  match d with
  | DocArr.empty => []
  | DocArr.rows rs => rs

/-- `RCNLPTagConverter.__call__` (lines 57-87), over an already tagged
document (the spacy tagging itself is an external collaborator). -/
def call (doc : List (String × String)) (exclude : List String)
    (word_exclude : List (String × String)) :
    Except PyRuntimeError (List (List ℚ)) :=
  (call_loop exclude word_exclude 0 DocArr.empty doc).map reduce

/-- The tokens the converter is meant to keep: tag not excluded, token
not excluded, and the tag maps to a symbol. -/
def retained (doc : List (String × String)) (exclude : List String)
    (word_exclude : List (String × String)) : List (String × String) :=
  doc.filter
    (fun w => w.2 ∉ exclude ∧ w ∉ word_exclude ∧ (tag_to_symbol w.2).isSome)

end RCNLPTagConverter

theorem sqDist_nonneg (u : List ℚ) : ∀ v : List ℚ, 0 ≤ sqDist u v := by
  induction u with
  | nil => intro v; simp [sqDist]
  | cons a u ih =>
    intro v
    cases v with
    | nil => simp [sqDist]
    | cons b v =>
      have h : sqDist (a :: u) (b :: v) = (a - b) ^ 2 + sqDist u v := by
        simp [sqDist]
      rw [h]
      exact add_nonneg (sq_nonneg _) (ih v)

theorem orderedInsert_pairwise_distLex (a : ℕ × ℚ) (l : List (ℕ × ℚ))
    (hs : l.Sorted distLe) (hp : l.Pairwise distLex)
    (hf : ∀ b ∈ l, a.1 < b.1) :
    (l.orderedInsert distLe a).Pairwise distLex := by
  induction l with
  | nil => simp [List.orderedInsert]
  | cons b t ih =>
    by_cases hab : distLe a b
    · rw [List.orderedInsert, if_pos hab]
      refine List.pairwise_cons.mpr ⟨?_, hp⟩
      intro c hc
      have hab2 : a.2 ≤ b.2 := hab
      rcases List.mem_cons.mp hc with rfl | hct
      · rcases lt_or_eq_of_le hab2 with h | h
        · exact Or.inl h
        · exact Or.inr ⟨h, hf c (List.mem_cons_self c t)⟩
      · have hbc : b.2 ≤ c.2 := List.rel_of_sorted_cons hs c hct
        rcases lt_or_eq_of_le (le_trans hab2 hbc) with h | h
        · exact Or.inl h
        · exact Or.inr ⟨h, hf c (List.mem_cons_of_mem b hct)⟩
    · rw [List.orderedInsert, if_neg hab]
      have hba : b.2 < a.2 := lt_of_not_le hab
      refine List.pairwise_cons.mpr ⟨?_, ?_⟩
      · intro c hc
        rcases (List.mem_orderedInsert distLe).mp hc with rfl | hct
        · exact Or.inl hba
        · exact (List.pairwise_cons.mp hp).1 c hct
      · exact ih hs.of_cons (List.pairwise_cons.mp hp).2
          (fun c hct => hf c (List.mem_cons_of_mem b hct))

theorem insertionSort_pairwise_distLex (l : List (ℕ × ℚ))
    (hl : l.Pairwise (fun a b => a.1 < b.1)) :
    (List.insertionSort distLe l).Pairwise distLex := by
  induction l with
  | nil => simp [List.insertionSort]
  | cons a t ih =>
    rw [List.insertionSort]
    refine orderedInsert_pairwise_distLex a _
      (List.sorted_insertionSort distLe t)
      (ih (List.pairwise_cons.mp hl).2) ?_
    intro b hb
    exact (List.pairwise_cons.mp hl).1 b
      ((List.perm_insertionSort distLe t).mem_iff.mp hb)

theorem length_filter_range_ne (i : ℕ) :
    ∀ n : ℕ, i < n →
      ((List.range n).filter (fun m => m ≠ i)).length = n - 1 := by
  intro n
  induction n with
  | zero => omega
  | succ n ih =>
    intro hi
    rw [List.range_succ, List.filter_append]
    by_cases h : i = n
    · subst h
      have h1 : (List.range i).filter (fun m => m ≠ i) = List.range i := by
        apply List.filter_eq_self.mpr
        intro a ha
        have : a < i := List.mem_range.mp ha
        simp only [decide_eq_true_eq]
        omega
      have h2 : [i].filter (fun m => m ≠ i) = [] := by simp
      rw [h1, h2]
      simp
    · have hne : n ≠ i := by omega
      have h2 : [n].filter (fun m => m ≠ i) = [n] := by simp [hne]
      rw [h2, List.length_append, ih (by omega)]
      simp only [List.length_singleton]
      omega

theorem rank_sq_perm (document_index : ℕ)
    (document_embeddings : List (List ℚ)) :
    (rank_sq document_index document_embeddings).Perm
      (((List.range document_embeddings.length).filter
          (fun n => n ≠ document_index)).map
        (fun n => (n, sqDist (document_embeddings.getD document_index [])
                             (document_embeddings.getD n [])))) :=
  List.perm_insertionSort distLe _

theorem rank_sq_mem {document_index : ℕ}
    {document_embeddings : List (List ℚ)} {p : ℕ × ℚ}
    (hp : p ∈ rank_sq document_index document_embeddings) :
    p.1 ∈ (List.range document_embeddings.length).filter
        (fun n => n ≠ document_index) ∧
    p.2 = sqDist (document_embeddings.getD document_index [])
        (document_embeddings.getD p.1 []) := by
  have hm := (rank_sq_perm document_index document_embeddings).mem_iff.mp hp
  rw [List.mem_map] at hm
  obtain ⟨n, hn, rfl⟩ := hm
  exact ⟨hn, rfl⟩

theorem rank_sq_pairwise (document_index : ℕ)
    (document_embeddings : List (List ℚ)) :
    (rank_sq document_index document_embeddings).Pairwise distLex := by
  apply insertionSort_pairwise_distLex
  rw [List.pairwise_map]
  exact List.Pairwise.filter _ (List.pairwise_lt_range _)

/-! ## Theorems -/

/-- Claim C5: the reservoir constructor rejects `spectral_radius ≤ 0` as a
configuration error: for every parameter set with a non-positive spectral
radius, `create_reservoir` fails with a `ConfigurationError` instead of
returning a flow. -/
theorem create_reservoir_rejects_nonpositive_spectral_radius
    (n_symbols : Nat) (word_sparsity : ℚ) (size : Nat)
    (input_scaling leak_rate spectral_radius : ℚ)
    (h : spectral_radius ≤ 0) :
    create_reservoir n_symbols word_sparsity size input_scaling leak_rate
      spectral_radius =
      Except.error ConfigurationError.invalidSpectralRadius := by
  simp [create_reservoir, mkRCNLPWordReservoirNode, h, Except.map]

/-- Witness for claim C5 at the script's own parameters with the spectral
radius set to 0. -/
theorem create_reservoir_rejects_nonpositive_spectral_radius_witness :
    create_reservoir 14 (1 / 2) 100 (1 / 2) (1 / 20) 0 =
      Except.error ConfigurationError.invalidSpectralRadius :=
  create_reservoir_rejects_nonpositive_spectral_radius 14 (1 / 2) 100
    (1 / 2) (1 / 20) 0 (by norm_num)

/-- Claim C3: for every state sequence (here: the output of the flow on the
document array) and every startup count `k` smaller than its length, the
aggregation step returns exactly the suffix `states[k:]` — the length drops
by `k`, element `m` of the result is element `k + m` of the input — and for
`k = 0` the result is the input sequence itself. -/
theorem generate_reservoir_states_drop_spec
    (the_flow : List (List ℚ) → List (List ℚ)) (doc_array : List (List ℚ))
    (k : Nat) (_hk : k < (the_flow doc_array).length) :
    (generate_reservoir_states the_flow doc_array k).length =
        (the_flow doc_array).length - k ∧
    (∀ m, (generate_reservoir_states the_flow doc_array k)[m]? =
        (the_flow doc_array)[k + m]?) ∧
    generate_reservoir_states the_flow doc_array 0 = the_flow doc_array := by
  refine ⟨?_, ?_, ?_⟩
  · simp [generate_reservoir_states]
  · intro m
    simp [generate_reservoir_states, List.getElem?_drop]
  · simp [generate_reservoir_states]

/-- Witness for claim C3: a three-state sequence with one startup state
dropped. -/
theorem generate_reservoir_states_drop_spec_witness :
    (generate_reservoir_states id [[1], [2], [3]] 1).length = 3 - 1 ∧
    (generate_reservoir_states id [[1], [2], [3]] 1)[0]? =
        [[(1 : ℚ)], [2], [3]][1 + 0]? ∧
    generate_reservoir_states id [[1], [2], [3]] 0 = [[(1 : ℚ)], [2], [3]] := by
  have h := generate_reservoir_states_drop_spec id [[(1 : ℚ)], [2], [3]] 1
    (by simp)
  exact ⟨h.1, h.2.1 0, h.2.2⟩

/-- Claim C4, counterexample: with a one-state sequence and startup count 1
(`startup ≥ len(states)`), the aggregation step returns the empty sequence;
no error of any kind is raised, contradicting the claimed
`ConfigurationError`. -/
theorem generate_reservoir_states_startup_overflow_concrete :
    generate_reservoir_states id [[(0 : ℚ)]] 1 = [] := rfl

/-- Claim C4 as amended: whenever the startup count is at least the length
of the state sequence, the aggregation step silently returns the empty
sequence (Python slicing `states[k:]` never raises for `k ≥ len`). -/
theorem generate_reservoir_states_startup_overflow_returns_empty
    (the_flow : List (List ℚ) → List (List ℚ)) (doc_array : List (List ℚ))
    (k : Nat) (hk : (the_flow doc_array).length ≤ k) :
    generate_reservoir_states the_flow doc_array k = [] := by
  simp [generate_reservoir_states, List.drop_eq_nil_of_le hk]

/-- Witness for the amended claim C4: startup 2 on a one-state sequence. -/
theorem generate_reservoir_states_startup_overflow_returns_empty_witness :
    generate_reservoir_states id [[(5 : ℚ)]] 2 = [] :=
  generate_reservoir_states_startup_overflow_returns_empty id [[(5 : ℚ)]] 2
    (by simp)

/-- Claim C9: the linear reducer is fitted exactly once, on the vertical
concatenation of both authors' state matrices, and the fitted model is then
applied via `transform` to each author's matrix separately: both transform
results carry the same basis `state1 ++ state2` and a fit count of 1, so
both embeddings live in one shared coordinate frame with no refit in
between. -/
theorem main_pca_fit_once_transform_twice (state1 state2 : List (List ℚ)) :
    main_pca_segment state1 state2 =
      some ((np_vstack state1 state2, 1, state1),
            (np_vstack state1 state2, 1, state2)) := rfl

/-- Claim C10: `get_tags` returns 45 tag strings, among which the tag
`IN` occurs twice, at the consecutive positions 13 and 14; hence only 44
tags are distinct while `_get_inputs_size` reports 45, so the one-hot
input dimension exceeds the number of distinct POS tags by one. -/
theorem get_tags_duplicate_IN_tag :
    RCNLPTagConverter.get_tags.length = 45 ∧
    RCNLPTagConverter.get_tags.count "IN" = 2 ∧
    RCNLPTagConverter.get_tags.get? 13 = some "IN" ∧
    RCNLPTagConverter.get_tags.get? 14 = some "IN" ∧
    RCNLPTagConverter.get_tags.dedup.length = 44 ∧
    RCNLPTagConverter._get_inputs_size = 45 := by
  refine ⟨by decide, by decide, by decide, by decide, by decide, by decide⟩

/-- Claim C2, counterexample: on the single-column embedding matrix with
column (0,0) and query index 0, `get_similar_documents` returns the empty
list; no error of any kind is raised, contradicting the claimed
`ConfigurationError`. -/
theorem get_similar_documents_single_column_concrete :
    get_similar_documents 0 [[(0 : ℚ), 0]] = [] := rfl

/-- Claim C2 as amended: `get_similar_documents` performs no column-count
validation.  On any single-column matrix with the (only) valid query
index 0, the loop body is skipped for the single column and the empty
ranking list is returned instead of an error. -/
theorem get_similar_documents_single_column_returns_empty
    (col : List ℚ) : get_similar_documents 0 [col] = [] := rfl

/-- Claim C1: for every document-embedding matrix with at least 2 columns
and every valid column index, `get_similar_documents` returns exactly
`column_count - 1` pairs whose indices are exactly the other column
indices (a permutation of them, so the query index never appears), each
carrying the Euclidean distance from the query column, sorted ascending
by distance with ties resolved by increasing column index (encounter
order); and on the 3-column matrix with columns (0,0), (1,0), (3,4),
ranking from column 0 returns [(1, 1), (2, 5)] in that order. -/
theorem get_similar_documents_spec :
    (∀ (document_embeddings : List (List ℚ)) (document_index : ℕ),
      2 ≤ document_embeddings.length →
      document_index < document_embeddings.length →
      ((get_similar_documents document_index document_embeddings).length =
          document_embeddings.length - 1 ∧
       ((get_similar_documents document_index document_embeddings).map
          Prod.fst).Perm
          ((List.range document_embeddings.length).filter
            (fun n => n ≠ document_index)) ∧
       (∀ p ∈ get_similar_documents document_index document_embeddings,
          p.2 = Real.sqrt
            ((sqDist (document_embeddings.getD document_index [])
              (document_embeddings.getD p.1 []) : ℚ) : ℝ)) ∧
       (get_similar_documents document_index document_embeddings).Pairwise
          (fun a b => a.2 < b.2 ∨ (a.2 = b.2 ∧ a.1 < b.1)))) ∧
    get_similar_documents 0 [[0, 0], [1, 0], [3, 4]] = [(1, 1), (2, 5)] := by
  constructor
  · intro cols i _h2 hi
    refine ⟨?_, ?_, ?_, ?_⟩
    · rw [get_similar_documents, List.length_map,
        (rank_sq_perm i cols).length_eq, List.length_map,
        length_filter_range_ne i cols.length hi]
    · have e1 : (get_similar_documents i cols).map Prod.fst =
          (rank_sq i cols).map Prod.fst := by
        rw [get_similar_documents, List.map_map]
        rfl
      have h := (rank_sq_perm i cols).map Prod.fst
      rw [List.map_map] at h
      have e3 : List.map
          (Prod.fst ∘ fun n => (n, sqDist (cols.getD i []) (cols.getD n [])))
          ((List.range cols.length).filter (fun n => n ≠ i)) =
          (List.range cols.length).filter (fun n => n ≠ i) := List.map_id _
      rw [e3] at h
      rw [e1]
      exact h
    · intro p hp
      rw [get_similar_documents, List.mem_map] at hp
      obtain ⟨q, hq, rfl⟩ := hp
      show Real.sqrt ((q.2 : ℚ) : ℝ) =
        Real.sqrt ((sqDist (cols.getD i []) (cols.getD q.1 []) : ℚ) : ℝ)
      rw [(rank_sq_mem hq).2]
    · rw [get_similar_documents, List.pairwise_map]
      refine List.Pairwise.imp_of_mem ?_ (rank_sq_pairwise i cols)
      intro a b ha hb hab
      have ha2 : (0 : ℚ) ≤ a.2 := by
        rw [(rank_sq_mem ha).2]; exact sqDist_nonneg _ _
      show Real.sqrt ((a.2 : ℚ) : ℝ) < Real.sqrt ((b.2 : ℚ) : ℝ) ∨
        (Real.sqrt ((a.2 : ℚ) : ℝ) = Real.sqrt ((b.2 : ℚ) : ℝ) ∧ a.1 < b.1)
      rcases hab with h | ⟨heq, hlt⟩
      · left
        apply Real.sqrt_lt_sqrt
        · exact_mod_cast ha2
        · exact_mod_cast h
      · right
        exact ⟨by rw [heq], hlt⟩
  · have hr : rank_sq 0 [[(0 : ℚ), 0], [1, 0], [3, 4]] = [(1, 1), (2, 25)] :=
      by
      simp [rank_sq, sqDist, List.range_succ, distLe]
      norm_num
    have e1 : Real.sqrt 1 = 1 := Real.sqrt_one
    have e5 : Real.sqrt 25 = 5 := by
      rw [show (25 : ℝ) = 5 ^ 2 by norm_num]
      exact Real.sqrt_sq (by norm_num)
    rw [get_similar_documents, hr]
    simp [e1, e5]

/-- Witness for claim C1 at the specification's own 3-column example. -/
theorem get_similar_documents_spec_witness :
    (get_similar_documents 0 [[0, 0], [1, 0], [3, 4]]).length = 3 - 1 ∧
    get_similar_documents 0 [[0, 0], [1, 0], [3, 4]] = [(1, 1), (2, 5)] :=
  ⟨(get_similar_documents_spec.1 [[0, 0], [1, 0], [3, 4]] 0 (by decide)
      (by decide)).1,
   get_similar_documents_spec.2⟩

theorem pyInt_pixel_bounds (c : ℚ) (h1 : -1 ≤ c) (h2 : c < 1) :
    0 ≤ pyInt ((c + 1) * 128) ∧ pyInt ((c + 1) * 128) ≤ 255 := by
  have hx : (0 : ℚ) ≤ (c + 1) * 128 := by nlinarith
  have hx2 : (c + 1) * 128 < 256 := by nlinarith
  rw [pyInt, if_pos hx]
  constructor
  · exact Int.floor_nonneg.mpr hx
  · have hlt : ⌊(c + 1) * 128⌋ < 256 := by
      apply Int.floor_lt.mpr
      push_cast
      exact hx2
    omega

theorem npIndex256_of_bounds {p : ℤ} (h0 : 0 ≤ p) (h255 : p ≤ 255) :
    npIndex256 p = Except.ok p := by
  rw [npIndex256, if_neg (by omega), Int.emod_eq_of_lt h0 (by omega)]

theorem npIndex256_ok_bounds {p q : ℤ}
    (h : npIndex256 p = Except.ok q) : 0 ≤ q ∧ q < 256 := by
  rw [npIndex256] at h
  by_cases hc : 256 ≤ p ∨ p < -256
  · rw [if_pos hc] at h
    exact absurd h (by simp)
  · rw [if_neg hc] at h
    have hq : q = p % 256 := by
      injection h with h'
      exact h'.symm
    subst hq
    exact ⟨Int.emod_nonneg p (by norm_num), Int.emod_lt_of_pos p (by norm_num)⟩

theorem sum_ite_cast_range (N : ℕ) (t : ℤ) (w : ℚ) (h0 : 0 ≤ t)
    (hN : t < N) :
    (∑ a ∈ Finset.range N, if (a : ℤ) = t then w else 0) = w := by
  have h := Finset.sum_eq_single_of_mem (s := Finset.range N)
    (f := fun a : ℕ => if (a : ℤ) = t then w else 0) t.toNat
    (Finset.mem_range.mpr (by omega))
    (fun b _ hb => by
      show (if ((b : ℤ) = t) then w else 0) = 0
      rw [if_neg (by omega)])
  rw [h]
  show (if (((t.toNat : ℕ) : ℤ) = t) then w else 0) = w
  rw [if_pos (by omega)]

theorem totalInk_zero : totalInk (fun _ _ _ => 0) = 0 := by
  simp [totalInk]

theorem totalInk_addAt (img : RCImage) (a b : ℤ) (ch : ℕ) (v : ℚ)
    (ha0 : 0 ≤ a) (ha : a < 256) (hb0 : 0 ≤ b) (hb : b < 256)
    (hch : ch < 3) :
    totalInk (addAt img a b ch v) = totalInk img + v := by
  have hsplit : ∀ (P : Prop) [inst : Decidable P] (x : ℚ),
      (if P then x + v else x) = x + (if P then v else 0) := by
    intro P inst x
    by_cases h : P <;> simp [h]
  have inner : ∀ x y : ℕ,
      (∑ c ∈ Finset.range 3,
        if (x : ℤ) = a ∧ (y : ℤ) = b ∧ c = ch then v else 0) =
      if (x : ℤ) = a ∧ (y : ℤ) = b then v else 0 := by
    intro x y
    by_cases h : (x : ℤ) = a ∧ (y : ℤ) = b
    · rw [if_pos h]
      have e : ∀ c : ℕ, (if (x : ℤ) = a ∧ (y : ℤ) = b ∧ c = ch then v else 0)
          = if c = ch then v else 0 := by
        intro c
        by_cases hc : c = ch
        · rw [if_pos ⟨h.1, h.2, hc⟩, if_pos hc]
        · rw [if_neg (by tauto), if_neg hc]
      rw [Finset.sum_congr rfl (fun c _ => e c),
        Finset.sum_ite_eq' (Finset.range 3) ch (fun _ => v),
        if_pos (Finset.mem_range.mpr hch)]
    · rw [if_neg h, Finset.sum_eq_zero]
      intro c _
      rw [if_neg (by tauto)]
  have middle : ∀ x : ℕ,
      (∑ y ∈ Finset.range 256,
        if (x : ℤ) = a ∧ (y : ℤ) = b then v else 0) =
      if (x : ℤ) = a then v else 0 := by
    intro x
    by_cases h : (x : ℤ) = a
    · rw [if_pos h]
      have e : ∀ y : ℕ, (if (x : ℤ) = a ∧ (y : ℤ) = b then v else 0)
          = if (y : ℤ) = b then v else 0 := by
        intro y
        by_cases hy : (y : ℤ) = b
        · rw [if_pos ⟨h, hy⟩, if_pos hy]
        · rw [if_neg (by tauto), if_neg hy]
      rw [Finset.sum_congr rfl (fun y _ => e y)]
      exact sum_ite_cast_range 256 b v hb0 (by omega)
    · rw [if_neg h, Finset.sum_eq_zero]
      intro y _
      rw [if_neg (by tauto)]
  have key : (∑ x ∈ Finset.range 256, ∑ y ∈ Finset.range 256,
      ∑ c ∈ Finset.range 3,
        if (x : ℤ) = a ∧ (y : ℤ) = b ∧ c = ch then v else 0) = v := by
    rw [Finset.sum_congr rfl (fun x _ => Finset.sum_congr rfl
      (fun y _ => inner x y))]
    rw [Finset.sum_congr rfl (fun x _ => middle x)]
    exact sum_ite_cast_range 256 a v ha0 (by omega)
  rw [totalInk]
  simp only [addAt, hsplit]
  simp only [Finset.sum_add_distrib]
  rw [key, totalInk]

theorem accum_points_totalInk (index1 index2 ch : ℕ) (r : ℚ) (hch : ch < 3) :
    ∀ (l : List (List ℚ)) (img img2 : RCImage),
      accum_points index1 index2 ch r img l = Except.ok img2 →
      totalInk img2 = totalInk img + l.length * r := by
  intro l
  induction l with
  | nil =>
    intro img img2 h
    simp only [accum_points] at h
    injection h with h'
    subst h'
    simp
  | cons s rest ih =>
    intro img img2 h
    simp only [accum_points] at h
    split at h
    · split at h
      · rename_i v1 v2 hg1 hg2 a b hn1 hn2
        have hab := npIndex256_ok_bounds hn1
        have hbb := npIndex256_ok_bounds hn2
        have t := ih (addAt img a b ch r) img2 h
        rw [t, totalInk_addAt img a b ch r hab.1 hab.2 hbb.1 hbb.2 hch]
        push_cast [List.length_cons]
        ring
      · exact absurd h (by simp)
      · exact absurd h (by simp)
    · exact absurd h (by simp)
    · exact absurd h (by simp)

theorem accum_points_ok (index1 index2 ch : ℕ) (r : ℚ) :
    ∀ (l : List (List ℚ)) (img : RCImage),
      (∀ s ∈ l, ∃ v1 v2, s[index1]? = some v1 ∧ s[index2]? = some v2 ∧
        -1 ≤ v1 ∧ v1 < 1 ∧ -1 ≤ v2 ∧ v2 < 1) →
      ∃ img2, accum_points index1 index2 ch r img l = Except.ok img2 := by
  intro l
  induction l with
  | nil =>
    intro img _
    exact ⟨img, rfl⟩
  | cons s rest ih =>
    intro img h
    obtain ⟨v1, v2, hv1, hv2, hb1, hb2, hb3, hb4⟩ :=
      h s (List.mem_cons_self s rest)
    have g1 : getCoord s index1 = Except.ok v1 := by rw [getCoord, hv1]
    have g2 : getCoord s index2 = Except.ok v2 := by rw [getCoord, hv2]
    have p1 := pyInt_pixel_bounds v1 hb1 hb2
    have p2 := pyInt_pixel_bounds v2 hb3 hb4
    have n1 := npIndex256_of_bounds p1.1 p1.2
    have n2 := npIndex256_of_bounds p2.1 p2.2
    obtain ⟨img2, h2⟩ := ih
      (addAt img (pyInt ((v1 + 1) * 128)) (pyInt ((v2 + 1) * 128)) ch r)
      (fun t ht => h t (List.mem_cons_of_mem s ht))
    refine ⟨img2, ?_⟩
    simp only [accum_points, g1, g2, n1, n2]
    exact h2

theorem pyInt_boundary : pyInt (((1 : ℚ) + 1) * 128) = 256 := by
  rw [show ((1 : ℚ) + 1) * 128 = 256 by norm_num]
  rfl

theorem pyInt_center : pyInt (((0 : ℚ) + 1) * 128) = 128 := by
  rw [show ((0 : ℚ) + 1) * 128 = 128 by norm_num]
  rfl

theorem generate_pca_image_demo :
    generate_pca_image [[0, 0]] [] 0 1 = Except.ok demo_pca_image := by
  have hg0 : getCoord [(0 : ℚ), 0] 0 = Except.ok 0 := rfl
  have hg1 : getCoord [(0 : ℚ), 0] 1 = Except.ok 0 := rfl
  have hn : npIndex256 (pyInt (((0 : ℚ) + 1) * 128)) = Except.ok 128 := by
    rw [pyInt_center, npIndex256, if_neg (by norm_num)]
    norm_num
  have hacc1 : accum_points 0 1 1 (256 : ℚ) (fun _ _ _ => 0) [[(0 : ℚ), 0]]
      = Except.ok demo_pca_image := by
    simp only [accum_points, hg0, hg1, hn, demo_pca_image]
  norm_num [generate_pca_image]
  rw [hacc1]
  simp only [accum_points]

theorem demo_pca_image_value : demo_pca_image 128 128 1 = 256 := by
  simp [demo_pca_image, addAt]

/-- Claim C6, counterexample: the in-range boundary coordinate 1 maps to
pixel index `int((1+1)*128) = 256`, which lies outside [0, 255], so
rasterizing the single point (1, 1) raises an IndexError instead of
accumulating at pixel (255, 255) as the claim states. -/
theorem generate_pca_image_boundary_point_index_error :
    pyInt (((1 : ℚ) + 1) * 128) = 256 ∧
    generate_pca_image [[1, 1]] [] 0 1 =
      Except.error PyRuntimeError.indexError := by
  refine ⟨pyInt_boundary, ?_⟩
  have hn : npIndex256 (pyInt (((1 : ℚ) + 1) * 128)) =
      Except.error PyRuntimeError.indexError := by
    rw [pyInt_boundary, npIndex256, if_pos (Or.inl (by norm_num))]
  have hg0 : getCoord [(1 : ℚ), 1] 0 = Except.ok 1 := rfl
  have hg1 : getCoord [(1 : ℚ), 1] 1 = Except.ok 1 := rfl
  have hacc : accum_points 0 1 1 (256 : ℚ) (fun _ _ _ => 0) [[(1 : ℚ), 1]]
      = Except.error PyRuntimeError.indexError := by
    simp only [accum_points, hg0, hg1, hn]
  norm_num [generate_pca_image]
  rw [hacc]

/-- Claim C6 as amended: for coordinates in the half-open range [-1, 1)
the pixel index `int((coord+1)*128)` lies within [0, 255], and points
whose two used coordinates are all in [-1, 1) are rasterized without any
out-of-range access (given at least one point, so that the ratio is
defined); the point (0, 0) is accumulated at pixel (128, 128).  The claim
fails only at the right boundary: coordinate 1 yields index 256 (see the
counterexample). -/
theorem generate_pca_image_inrange_safe :
    (∀ c : ℚ, -1 ≤ c → c < 1 →
      0 ≤ pyInt ((c + 1) * 128) ∧ pyInt ((c + 1) * 128) ≤ 255) ∧
    (∀ (states1 states2 : List (List ℚ)) (index1 index2 : ℕ),
      states1.length + states2.length ≠ 0 →
      (∀ s ∈ states1 ++ states2, ∃ v1 v2, s[index1]? = some v1 ∧
        s[index2]? = some v2 ∧ -1 ≤ v1 ∧ v1 < 1 ∧ -1 ≤ v2 ∧ v2 < 1) →
      ∃ img, generate_pca_image states1 states2 index1 index2 =
        Except.ok img) ∧
    (generate_pca_image [[0, 0]] [] 0 1 = Except.ok demo_pca_image ∧
      demo_pca_image 128 128 1 = 256) := by
  refine ⟨pyInt_pixel_bounds, ?_, generate_pca_image_demo, demo_pca_image_value⟩
  intro states1 states2 index1 index2 hn hmem
  obtain ⟨img1, h1⟩ := accum_points_ok index1 index2 1
    ((256 : ℚ) / ((states1.length + states2.length : ℕ) : ℚ)) states1
    (fun _ _ _ => 0)
    (fun s hs => hmem s (List.mem_append_left states2 hs))
  obtain ⟨img2, h2⟩ := accum_points_ok index1 index2 2
    ((256 : ℚ) / ((states1.length + states2.length : ℕ) : ℚ)) states2 img1
    (fun s hs => hmem s (List.mem_append_right states1 hs))
  refine ⟨img2, ?_⟩
  simp only [generate_pca_image, if_neg hn, h1]
  exact h2

/-- Witness for the amended claim C6: the coordinate 0 maps to a pixel
index inside [0, 255]. -/
theorem generate_pca_image_inrange_safe_witness :
    0 ≤ pyInt (((0 : ℚ) + 1) * 128) ∧ pyInt (((0 : ℚ) + 1) * 128) ≤ 255 :=
  generate_pca_image_inrange_safe.1 0 (by norm_num) (by norm_num)

/-- Claim C7: every point deposits exactly `256 / n_samples` into its
channel's pixel, so whenever `generate_pca_image` returns an image at
all, the total accumulated intensity over the whole 256x256x3 image is
exactly 256, independently of how the points are split between the two
sets (in particular, a single point deposits one increment of 256). -/
theorem generate_pca_image_total_ink (states1 states2 : List (List ℚ))
    (index1 index2 : ℕ) (img : RCImage)
    (h : generate_pca_image states1 states2 index1 index2 = Except.ok img) :
    totalInk img = 256 := by
  simp only [generate_pca_image] at h
  by_cases hn : states1.length + states2.length = 0
  · rw [if_pos hn] at h
    exact absurd h (by simp)
  · rw [if_neg hn] at h
    split at h
    · rename_i img1 h1
      have t1 := accum_points_totalInk index1 index2 1 _ (by norm_num)
        states1 (fun _ _ _ => 0) img1 h1
      have t2 := accum_points_totalInk index1 index2 2 _ (by norm_num)
        states2 img1 img h
      have hq : ((states1.length + states2.length : ℕ) : ℚ) ≠ 0 := by
        exact_mod_cast hn
      rw [t2, t1, totalInk_zero]
      push_cast at hq ⊢
      field_simp
      ring
    · exact absurd h (by simp)

/-- Witness for claim C7: the single point (0, 0) deposits a total
intensity of 256. -/
theorem generate_pca_image_total_ink_witness :
    totalInk demo_pca_image = 256 :=
  generate_pca_image_total_ink [[0, 0]] [] 0 1 demo_pca_image
    generate_pca_image_demo

/-- Claim C8 (a code bug): the converter does not produce one vector per
retained token.  On the two-token document [("a", ","), ("b", "NN")] with
the tag "," excluded, exactly 1 token is retained, yet `__call__` raises
a ValueError inside `np.vstack`: the `index == 0` test checks the
document position of the token, not whether `doc_array` is still the
empty array, so the retained second token is stacked onto `np.array([])`
whose width 0 does not match the symbol width 45. -/
theorem call_first_token_excluded_bug :
    (RCNLPTagConverter.retained [("a", ","), ("b", "NN")] [","] []).length
        = 1 ∧
    RCNLPTagConverter.call [("a", ","), ("b", "NN")] [","] [] =
      Except.error PyRuntimeError.valueError := by
  constructor
  · rfl
  · rfl
